import Mathlib

/-!
Verification of the ockam relay-creation and access-control core.

Source files embedded:
  implementations/rust/ockam/ockam_core/src/access_control.rs
  implementations/rust/ockam/ockam_command/src/forwarder/create.rs

The access-control combinators `All` and `Any` live in submodules
(`mod all`, `mod any`) whose files are not part of the sources, so they
are modelled from the specification; everything about the route
resolver and the relay request builder is translated directly from
`create.rs`.
-/

namespace Ockam

/-! ## Access control combinators

A child policy is modelled as its `is_authorized` function: given a
message it returns `Except E Bool` (Rust `Result<bool>`).  The second
component of the result of a combinator counts how many children were
evaluated, making the short-circuit behaviour observable. -/

/-- Modelled from the spec: the `All` conjunction combinator
(`access_control.rs` declares `mod all` but its file is not among the
sources).  Per §4.3: evaluate children in order; short-circuit and
return `Ok(false)` on the first child that returns `Ok(false)`; if any
child returns an error, propagate it immediately; only if every child
returns `Ok(true)` return `Ok(true)`; the empty sequence is `Ok(true)`.
Also returns the number of children evaluated. -/
def allAuth {M E : Type} (children : List (M → Except E Bool)) (m : M) :
    Except E Bool × Nat :=
  match children with
  | [] => (Except.ok true, 0)
  | c :: cs =>
    match c m with
    | Except.error e => (Except.error e, 1)
    | Except.ok false => (Except.ok false, 1)
    | Except.ok true =>
      let r := allAuth cs m
      (r.1, r.2 + 1)

/-- Modelled from the spec: the `Any` disjunction combinator
(`access_control.rs` declares `mod any` but its file is not among the
sources).  Per §4.3: evaluate children in order; short-circuit and
return `Ok(true)` on the first child returning `Ok(true)`; propagate
the first error encountered when no prior child returned `Ok(true)`;
if all children return `Ok(false)`, return `Ok(false)`; the empty
sequence is `Ok(false)`.  Also returns the number of children
evaluated. -/
def anyAuth {M E : Type} (children : List (M → Except E Bool)) (m : M) :
    Except E Bool × Nat :=
  match children with
  | [] => (Except.ok false, 0)
  | c :: cs =>
    match c m with
    | Except.error e => (Except.error e, 1)
    | Except.ok true => (Except.ok true, 1)
    | Except.ok false =>
      let r := anyAuth cs m
      (r.1, r.2 + 1)

/-- Modelled from the spec: `AllowAll.is_authorized(_) = Ok(true)`. -/
def allowAllAuth {M E : Type} (_m : M) : Except E Bool := Except.ok true

/-- Modelled from the spec: `DenyAll.is_authorized(_) = Ok(false)`. -/
def denyAllAuth {M E : Type} (_m : M) : Except E Bool := Except.ok false

/-! ## Route resolution (`forwarder/create.rs`)

`MultiAddr` segments become an inductive `Proto`.  A segment whose
protocol code is `Node::CODE` (resp. `Project::CODE`) but whose payload
fails the `cast` is represented by `nodeInvalid` (resp.
`projectInvalid`), mirroring the `ok_or_else(invalid ... protocol)`
paths of the source. -/

/-- The `InternetAddress` type of `ockam_api::config::lookup`: one of DNS
name, IPv4 or IPv6, each with a port. -/
inductive InternetAddress : Type where
  | dns (name : String) (port : Nat)
  | v4 (ip : Nat × Nat × Nat × Nat) (port : Nat)
  | v6 (segs : List Nat) (port : Nat)
deriving DecidableEq, Repr

/-- Rust `InternetAddress::port()`. -/
def InternetAddress.port : InternetAddress → Nat
  | .dns _ p => p
  | .v4 _ p => p
  | .v6 _ p => p

/-- A `MultiAddr` protocol segment. -/
inductive Proto : Type where
  | node (a : String)
  | project (a : String)
  | dnsaddr (name : String)
  | ip4 (ip : Nat × Nat × Nat × Nat)
  | ip6 (segs : List Nat)
  | tcp (port : Nat)
  | nodeInvalid
  | projectInvalid
  | other (code : Nat) (data : List Nat)
deriving DecidableEq, Repr

/-- A project record from the lookup: stored route to the project's
node plus the required identity identifier. -/
structure ProjectRecord : Type where
  node_route : List Proto
  identity_id : String
deriving DecidableEq, Repr

/-- Modelled from the spec: the `AddressLookup` interface (§6) that
`opts.config.lookup()` returns; its implementation lives in
`ockam_api::config`, outside the sources.  `get_node` resolves a node
alias, `get_project` a project alias. -/
structure ConfigLookup : Type where
  get_node : String → Option InternetAddress
  get_project : String → Option ProjectRecord

/-- Errors of the resolution loop in `rpc`, one per `anyhow!` site plus
the propagated error of `refresh_projects` and the `--at` validation
error. -/
inductive RErr : Type where
  | invalidNodeProto
  | unknownNode (a : String)
  | invalidProjectProto
  | unknownProject (a : String)
  | remoteRefreshFailed (msg : String)
  | invalidAtArgument
deriving DecidableEq, Repr

/-- Rust `HashMap::insert`: replace the value when the key is present,
otherwise add the pair.  Keys stay unique. -/
def hmInsert (m : List (List Proto × String)) (k : List Proto) (v : String) :
    List (List Proto × String) :=
  if m.any (fun kv => decide (kv.1 = k)) then
    m.map (fun kv => if kv.1 = k then (k, v) else kv)
  else
    m ++ [(k, v)]

/-- The loop state of `rpc`: the accumulated route `ma`, the identity
mapping `pa`, the current lookup state, and (ghost, for stating the
refresh-once properties) the number of `refresh_projects` calls made so
far. -/
structure Acc : Type where
  ma : List Proto
  pa : List (List Proto × String)
  lookup : ConfigLookup
  refreshes : Nat

/-- One iteration of the `for proto in cmd.at.iter()` loop of `rpc`.
The refresh capability (`util::config::refresh_projects`, which
repopulates the cache) either fails or yields the lookup state after
repopulation.  Errors are paired with the number of refresh calls made
by the time of the failure. -/
def resolveSeg (refresh : ConfigLookup → Except RErr ConfigLookup)
    (acc : Acc) (proto : Proto) : Except (RErr × Nat) Acc :=
  match proto with
  | .node a =>
    match acc.lookup.get_node a with
    | none => Except.error (RErr.unknownNode a, acc.refreshes)
    | some addr =>
      let host : Proto :=
        match addr with
        | .dns name _ => Proto.dnsaddr name
        | .v4 ip _ => Proto.ip4 ip
        | .v6 segs _ => Proto.ip6 segs
      Except.ok { acc with ma := acc.ma ++ [host, Proto.tcp addr.port] }
  | .nodeInvalid => Except.error (RErr.invalidNodeProto, acc.refreshes)
  | .project a =>
    let step1 : Except (RErr × Nat) Acc :=
      if (acc.lookup.get_project a).isNone then
        match refresh acc.lookup with
        | Except.error e => Except.error (e, acc.refreshes + 1)
        | Except.ok l =>
          Except.ok { acc with lookup := l, refreshes := acc.refreshes + 1 }
      else Except.ok acc
    match step1 with
    | Except.error e => Except.error e
    | Except.ok acc1 =>
      match acc1.lookup.get_project a with
      | some p =>
        Except.ok { acc1 with
          ma := acc1.ma ++ p.node_route,
          pa := hmInsert acc1.pa p.node_route p.identity_id }
      | none => Except.error (RErr.unknownProject a, acc1.refreshes)
  | .projectInvalid => Except.error (RErr.invalidProjectProto, acc.refreshes)
  | p => Except.ok { acc with ma := acc.ma ++ [p] }

/-- The whole resolution loop of `rpc` (lines 61–103): fold
`resolveSeg` over the segments of `cmd.at`, starting from an empty
route and an empty identity mapping. -/
def resolve (refresh : ConfigLookup → Except RErr ConfigLookup)
    (lookup : ConfigLookup) (addr : List Proto) : Except (RErr × Nat) Acc :=
  addr.foldlM (resolveSeg refresh) ⟨[], [], lookup, 0⟩

/-! ## Relay request building -/

/-- The `CredentialExchangeMode` enum of
`ockam_api::nodes::models::secure_channel`. -/
inductive CredentialExchangeMode : Type where
  | noExchange
  | oneway
  | mutual
deriving DecidableEq, Repr

/-- The `CreateForwarder` request body built by `rpc`
(lines 105–119). -/
structure CreateForwarder : Type where
  address : List Proto
  «alias» : Option String
  at_rust_node : Bool
  identities : List (List Proto × String)
  mode : CredentialExchangeMode
deriving DecidableEq, Repr

/-- The alias computed at lines 106–110 of `create.rs`. -/
def forwarderAlias (at_rust_node : Bool) (forwarder_name : String) : String :=
  if at_rust_node then "forward_to_" ++ forwarder_name else forwarder_name

/-- Lower-case hex digit, as produced by `hex::encode`. -/
def hexDigitChar (n : Nat) : Char :=
  Char.ofNat (if n < 10 then 48 + n else 87 + n)

/-- Hex encoding of one byte, two lower-case digits. -/
def hexEncodeByte (b : Nat) : String :=
  String.mk [hexDigitChar (b / 16 % 16), hexDigitChar (b % 16)]

/-- Rust `hex::encode` of a byte sequence. -/
def hexEncode (bs : List Nat) : String :=
  String.join (bs.map hexEncodeByte)

/-- The `forwarder_name` field of `CreateCommand`: the user-supplied
name, or `hex::encode(&random::<[u8;4]>())` when none was given (the
clap `default_value_t`); the 4 random bytes are an explicit input. -/
def forwarderName (user : Option String) (rand4 : Nat × Nat × Nat × Nat) :
    String :=
  match user with
  | some s => s
  | none => hexEncode [rand4.1, rand4.2.1, rand4.2.2.1, rand4.2.2.2]

/-- The `rpc` function of `create.rs`, up to handing the built request
to the transport: validate `--at` (`is_local_node`, modelled from the
spec as an abstract syntactic predicate on the original unresolved
address, since `ockam_api::is_local_node` is outside the sources),
resolve the address, then build the `CreateForwarder` request.  The
result is the request that would be POSTed to `/node/forwarder`, or the
first error encountered. -/
def rpc (is_local_node : List Proto → Option Bool)
    (refresh : ConfigLookup → Except RErr ConfigLookup)
    (lookup : ConfigLookup) («at» : List Proto) (forwarder_name : String) :
    Except (RErr × Nat) CreateForwarder := do
  let at_rust_node ←
    match is_local_node «at» with
    | some b => Except.ok b
    | none => Except.error (RErr.invalidAtArgument, 0)
  let acc ← resolve refresh lookup «at»
  Except.ok
    { address := acc.ma
      «alias» := some (forwarderAlias at_rust_node forwarder_name)
      at_rust_node := at_rust_node
      identities := acc.pa
      mode := CredentialExchangeMode.oneway }

/-- A segment handled by the default arm of the `match` in the loop
(`ma.push_back_value(&proto)`), i.e. neither a node nor a project
segment (well-formed or not). -/
def Proto.isPassthrough : Proto → Bool
  | .node _ => false
  | .project _ => false
  | .nodeInvalid => false
  | .projectInvalid => false
  | _ => true

/-! Concrete lookup tables used to exercise the definitions. -/

/-- A lookup that knows nothing. -/
def emptyLookup : ConfigLookup :=
  { get_node := fun _ => none, get_project := fun _ => none }

/-- Two distinct project aliases whose stored routes are equal but
whose identities differ. -/
def c3Lookup : ConfigLookup :=
  { get_node := fun _ => none
    get_project := fun a =>
      if a = "p" then some ⟨[Proto.tcp 5000], "id-p"⟩
      else if a = "q" then some ⟨[Proto.tcp 5000], "id-q"⟩
      else none }

/-- The refreshed cache for the C4 scenario: project `p` becomes
visible only after `refresh_projects`. -/
def c4Refreshed : ConfigLookup :=
  { get_node := fun _ => none
    get_project := fun a =>
      if a = "p" then some ⟨[Proto.tcp 7000], "idp"⟩ else none }

/-- The end-to-end scenario of §8: node `a` at `10.0.0.1:4000`,
project `p` with stored route `[Tcp(5000)]` and identity `id-p`. -/
def c5Lookup : ConfigLookup :=
  { get_node := fun a =>
      if a = "a" then some (InternetAddress.v4 (10, 0, 0, 1) 4000) else none
    get_project := fun a =>
      if a = "p" then some ⟨[Proto.tcp 5000], "id-p"⟩ else none }

/-- The request built for a local target with the defaulted name
`hex::encode([0, 1, 171, 255]) = "0001abff"`. -/
def c8Req : CreateForwarder :=
  ⟨[], some "forward_to_0001abff", true, [], CredentialExchangeMode.oneway⟩

/-- The request built for a remote target with the explicit name
`relay1`. -/
def c10Req : CreateForwarder :=
  ⟨[], some "relay1", false, [], CredentialExchangeMode.oneway⟩

/-! ## Access-control theorems -/

section AccessControlLemmas

variable {M E : Type}

lemma allAuth_all_true (m : M) :
    ∀ cs : List (M → Except E Bool), (∀ f ∈ cs, f m = Except.ok true) →
      allAuth cs m = (Except.ok true, cs.length) := by
  intro cs
  induction cs with
  | nil => intro _; rfl
  | cons c cs ih =>
    intro h
    have hc : c m = Except.ok true := h c (List.mem_cons_self c cs)
    have ht : allAuth cs m = (Except.ok true, cs.length) :=
      ih fun f hf => h f (List.mem_cons_of_mem c hf)
    simp [allAuth, hc, ht]

lemma allAuth_stops_false (m : M) :
    ∀ (pre : List (M → Except E Bool)) (c : M → Except E Bool)
      (rest : List (M → Except E Bool)),
      (∀ f ∈ pre, f m = Except.ok true) → c m = Except.ok false →
      allAuth (pre ++ c :: rest) m = (Except.ok false, pre.length + 1) := by
  intro pre
  induction pre with
  | nil =>
    intro c rest _ hc
    simp [allAuth, hc]
  | cons p pre ih =>
    intro c rest h hc
    have hp : p m = Except.ok true := h p (List.mem_cons_self p pre)
    have ht := ih c rest (fun f hf => h f (List.mem_cons_of_mem p hf)) hc
    simp [allAuth, hp, ht]

lemma allAuth_stops_error (m : M) :
    ∀ (pre : List (M → Except E Bool)) (c : M → Except E Bool)
      (rest : List (M → Except E Bool)) (e : E),
      (∀ f ∈ pre, f m = Except.ok true) → c m = Except.error e →
      allAuth (pre ++ c :: rest) m = (Except.error e, pre.length + 1) := by
  intro pre
  induction pre with
  | nil =>
    intro c rest e _ hc
    simp [allAuth, hc]
  | cons p pre ih =>
    intro c rest e h hc
    have hp : p m = Except.ok true := h p (List.mem_cons_self p pre)
    have ht := ih c rest e (fun f hf => h f (List.mem_cons_of_mem p hf)) hc
    simp [allAuth, hp, ht]

lemma allAuth_true_only_if (m : M) :
    ∀ cs : List (M → Except E Bool), (allAuth cs m).1 = Except.ok true →
      ∀ f ∈ cs, f m = Except.ok true := by
  intro cs
  induction cs with
  | nil => intro _ f hf; cases hf
  | cons c cs ih =>
    intro h f hf
    rcases List.mem_cons.mp hf with hfc | hfs
    · subst hfc
      cases hc : f m with
      | error e => rw [allAuth, hc] at h; cases h
      | ok b =>
        cases b with
        | false => rw [allAuth, hc] at h; cases h
        | true => rfl
    · cases hc : c m with
      | error e => rw [allAuth, hc] at h; cases h
      | ok b =>
        cases b with
        | false => rw [allAuth, hc] at h; cases h
        | true =>
          rw [allAuth, hc] at h
          exact ih h f hfs

lemma anyAuth_all_false (m : M) :
    ∀ cs : List (M → Except E Bool), (∀ f ∈ cs, f m = Except.ok false) →
      anyAuth cs m = (Except.ok false, cs.length) := by
  intro cs
  induction cs with
  | nil => intro _; rfl
  | cons c cs ih =>
    intro h
    have hc : c m = Except.ok false := h c (List.mem_cons_self c cs)
    have ht : anyAuth cs m = (Except.ok false, cs.length) :=
      ih fun f hf => h f (List.mem_cons_of_mem c hf)
    simp [anyAuth, hc, ht]

lemma anyAuth_stops_true (m : M) :
    ∀ (pre : List (M → Except E Bool)) (c : M → Except E Bool)
      (rest : List (M → Except E Bool)),
      (∀ f ∈ pre, f m = Except.ok false) → c m = Except.ok true →
      anyAuth (pre ++ c :: rest) m = (Except.ok true, pre.length + 1) := by
  intro pre
  induction pre with
  | nil =>
    intro c rest _ hc
    simp [anyAuth, hc]
  | cons p pre ih =>
    intro c rest h hc
    have hp : p m = Except.ok false := h p (List.mem_cons_self p pre)
    have ht := ih c rest (fun f hf => h f (List.mem_cons_of_mem p hf)) hc
    simp [anyAuth, hp, ht]

lemma anyAuth_stops_error (m : M) :
    ∀ (pre : List (M → Except E Bool)) (c : M → Except E Bool)
      (rest : List (M → Except E Bool)) (e : E),
      (∀ f ∈ pre, f m = Except.ok false) → c m = Except.error e →
      anyAuth (pre ++ c :: rest) m = (Except.error e, pre.length + 1) := by
  intro pre
  induction pre with
  | nil =>
    intro c rest e _ hc
    simp [anyAuth, hc]
  | cons p pre ih =>
    intro c rest e h hc
    have hp : p m = Except.ok false := h p (List.mem_cons_self p pre)
    have ht := ih c rest e (fun f hf => h f (List.mem_cons_of_mem p hf)) hc
    simp [anyAuth, hp, ht]

end AccessControlLemmas

/-- C1: for every ordered sequence of child policies and every message
`m`, `All(children).is_authorized(m)` evaluates children left to right
and returns `Ok(false)` at the first child returning `Ok(false)`
without evaluating later children, propagates the first child error
immediately without evaluating later children, returns `Ok(true)` only
if every child returns `Ok(true)`, and returns `Ok(true)` when the
child sequence is empty. -/
theorem C1_all_conjunction {M E : Type} (m : M) :
    (allAuth ([] : List (M → Except E Bool)) m = (Except.ok true, 0))
  ∧ (∀ (pre : List (M → Except E Bool)) (c : M → Except E Bool)
       (rest : List (M → Except E Bool)),
       (∀ f ∈ pre, f m = Except.ok true) → c m = Except.ok false →
       allAuth (pre ++ c :: rest) m = (Except.ok false, pre.length + 1))
  ∧ (∀ (pre : List (M → Except E Bool)) (c : M → Except E Bool)
       (rest : List (M → Except E Bool)) (e : E),
       (∀ f ∈ pre, f m = Except.ok true) → c m = Except.error e →
       allAuth (pre ++ c :: rest) m = (Except.error e, pre.length + 1))
  ∧ (∀ cs : List (M → Except E Bool), (∀ f ∈ cs, f m = Except.ok true) →
       allAuth cs m = (Except.ok true, cs.length))
  ∧ (∀ cs : List (M → Except E Bool), (allAuth cs m).1 = Except.ok true →
       ∀ f ∈ cs, f m = Except.ok true) :=
  ⟨rfl, allAuth_stops_false m, allAuth_stops_error m,
   allAuth_all_true m, allAuth_true_only_if m⟩

/-- Witness for C1: a concrete `All` of three children stops at the
second child with `Ok(false)`, never reaching the erroring third. -/
theorem C1_all_conjunction_witness :
    allAuth [(fun _ => Except.ok true : Unit → Except String Bool),
             (fun _ => Except.ok false),
             (fun _ => Except.error "broken policy")] () =
      (Except.ok false, 2) := by
  have h := (C1_all_conjunction (M := Unit) (E := String) ()).2.1
  have := h [fun _ => Except.ok true] (fun _ => Except.ok false)
    [fun _ => Except.error "broken policy"]
    (by intro f hf; rw [List.mem_singleton] at hf; subst hf; rfl) rfl
  simpa using this

/-- C2: for every ordered sequence of child policies and every message
`m`, `Any(children).is_authorized(m)` evaluates children left to right
and returns `Ok(true)` at the first child returning `Ok(true)` without
evaluating later children, propagates the first error encountered when
no earlier child returned `Ok(true)`, returns `Ok(false)` if all
children return `Ok(false)`, and returns `Ok(false)` when the child
sequence is empty. -/
theorem C2_any_disjunction {M E : Type} (m : M) :
    (anyAuth ([] : List (M → Except E Bool)) m = (Except.ok false, 0))
  ∧ (∀ (pre : List (M → Except E Bool)) (c : M → Except E Bool)
       (rest : List (M → Except E Bool)),
       (∀ f ∈ pre, f m = Except.ok false) → c m = Except.ok true →
       anyAuth (pre ++ c :: rest) m = (Except.ok true, pre.length + 1))
  ∧ (∀ (pre : List (M → Except E Bool)) (c : M → Except E Bool)
       (rest : List (M → Except E Bool)) (e : E),
       (∀ f ∈ pre, f m = Except.ok false) → c m = Except.error e →
       anyAuth (pre ++ c :: rest) m = (Except.error e, pre.length + 1))
  ∧ (∀ cs : List (M → Except E Bool), (∀ f ∈ cs, f m = Except.ok false) →
       anyAuth cs m = (Except.ok false, cs.length)) :=
  ⟨rfl, anyAuth_stops_true m, anyAuth_stops_error m, anyAuth_all_false m⟩

/-- Witness for C2: a concrete `Any` of three children stops at the
second child with `Ok(true)`, never reaching the erroring third. -/
theorem C2_any_disjunction_witness :
    anyAuth [(fun _ => Except.ok false : Unit → Except String Bool),
             (fun _ => Except.ok true),
             (fun _ => Except.error "broken policy")] () =
      (Except.ok true, 2) := by
  have h := (C2_any_disjunction (M := Unit) (E := String) ()).2.1
  have := h [fun _ => Except.ok false] (fun _ => Except.ok true)
    [fun _ => Except.error "broken policy"]
    (by intro f hf; rw [List.mem_singleton] at hf; subst hf; rfl) rfl
  simpa using this


/-! ## Resolver theorems -/

/-- C3 counterexample: the claim says the identity mapping contains one
entry per project segment encountered.  On the address
`[Project("p"), Project("q")]` where both aliases resolve (routes equal,
identities `id-p` and `id-q`), the code performs both lookups and
appends both routes, yet the `HashMap` ends with a single entry and the
first identity has been overwritten — not one entry per segment. -/
theorem C3_counterexample :
    (resolve (fun l => Except.ok l) c3Lookup
        [Proto.project "p", Proto.project "q"]).map (fun a => (a.ma, a.pa)) =
      Except.ok ([Proto.tcp 5000, Proto.tcp 5000],
                 [([Proto.tcp 5000], "id-q")]) := by
  rfl

/-- C3 (amended): each project occurrence whose lookup succeeds
performs its own independent lookup and appends its own copy of the
stored route; each occurrence inserts an entry keyed by its stored
route into the identity mapping, a later insert with an equal route key
overwriting the earlier entry, so the mapping holds one entry per
distinct stored route rather than one per occurrence. -/
theorem C3_independent_lookups (refresh : ConfigLookup → Except RErr ConfigLookup)
    (lk : ConfigLookup) (a b : String) (ra rb : ProjectRecord)
    (ha : lk.get_project a = some ra) (hb : lk.get_project b = some rb) :
    resolve refresh lk [Proto.project a, Proto.project b] =
      Except.ok ⟨ra.node_route ++ rb.node_route,
        hmInsert (hmInsert [] ra.node_route ra.identity_id)
          rb.node_route rb.identity_id, lk, 0⟩
  ∧ (ra.node_route = rb.node_route →
      hmInsert (hmInsert [] ra.node_route ra.identity_id)
          rb.node_route rb.identity_id = [(rb.node_route, rb.identity_id)]) := by
  constructor
  · simp [resolve, List.foldlM, resolveSeg, ha, hb, Bind.bind, Except.bind, Pure.pure, Except.pure]
  · intro hroute
    simp [hmInsert, hroute]

/-- Witness for C3 (amended): both lookups of `c3Lookup` succeed, both
routes are appended, and the equal route keys collapse to the single
entry carrying `id-q`. -/
theorem C3_independent_lookups_witness :
    resolve (fun l => Except.ok l) c3Lookup
        [Proto.project "p", Proto.project "q"] =
      Except.ok ⟨[Proto.tcp 5000, Proto.tcp 5000],
                 [([Proto.tcp 5000], "id-q")], c3Lookup, 0⟩ := by
  have h := (C3_independent_lookups (fun l => Except.ok l) c3Lookup "p" "q"
    ⟨[Proto.tcp 5000], "id-p"⟩ ⟨[Proto.tcp 5000], "id-q"⟩
    (by decide) (by decide)).1
  simpa [hmInsert] using h

/-- C4: for a project segment whose alias is absent from the lookup,
one `refresh_projects` call is made and the lookup is queried again:
if the alias is then present the segment resolves (route appended,
identity entry inserted) with exactly one refresh performed; if still
absent, resolution fails with the unknown-project error, again with
exactly one refresh performed and no second refresh for that
segment. -/
theorem C4_refresh_once (refresh : ConfigLookup → Except RErr ConfigLookup)
    (acc : Acc) (a : String) (lk2 : ConfigLookup) (pr : ProjectRecord)
    (h0 : acc.lookup.get_project a = none)
    (hr : refresh acc.lookup = Except.ok lk2) :
    (lk2.get_project a = some pr →
      resolveSeg refresh acc (Proto.project a) =
        Except.ok { acc with
                    lookup := lk2
                    refreshes := acc.refreshes + 1
                    ma := acc.ma ++ pr.node_route
                    pa := hmInsert acc.pa pr.node_route pr.identity_id })
  ∧ (lk2.get_project a = none →
      resolveSeg refresh acc (Proto.project a) =
        Except.error (RErr.unknownProject a, acc.refreshes + 1)) := by
  constructor
  · intro h2
    simp [resolveSeg, h0, hr, h2]
  · intro h2
    simp [resolveSeg, h0, hr, h2]

/-- Witness for C4: alias `p` is absent from `emptyLookup`, the refresh
yields `c4Refreshed` where it is present, and the segment resolves
with exactly one refresh recorded. -/
theorem C4_refresh_once_witness :
    resolveSeg (fun _ => Except.ok c4Refreshed) ⟨[], [], emptyLookup, 0⟩
        (Proto.project "p") =
      Except.ok ⟨[Proto.tcp 7000], [([Proto.tcp 7000], "idp")],
                 c4Refreshed, 1⟩ := by
  have h := (C4_refresh_once (fun _ => Except.ok c4Refreshed)
    ⟨[], [], emptyLookup, 0⟩ "p" c4Refreshed ⟨[Proto.tcp 7000], "idp"⟩
    rfl rfl).1 (by decide)
  simpa [hmInsert] using h

/-- C5: the address `[Node("a"), Project("p")]`, with node `a` at IPv4
`10.0.0.1:4000` and project `p` stored as route `[Tcp(5000)]` with
identity `id-p`, resolves to `[Ip4(10.0.0.1), Tcp(4000), Tcp(5000)]`
with identity mapping `{[Tcp(5000)]: "id-p"}`. -/
theorem C5_end_to_end :
    (resolve (fun l => Except.ok l) c5Lookup
        [Proto.node "a", Proto.project "p"]).map (fun a => (a.ma, a.pa)) =
      Except.ok ([Proto.ip4 (10, 0, 0, 1), Proto.tcp 4000, Proto.tcp 5000],
                 [([Proto.tcp 5000], "id-p")]) := by
  rfl

/-- C6: a node segment fails with the unknown-node error exactly when
the alias is absent; when present, exactly two segments are appended,
the host first (DNS, IPv4 or IPv6 according to the record variant
tag) and the record TCP port second. -/
theorem C6_node_segment (refresh : ConfigLookup → Except RErr ConfigLookup)
    (acc : Acc) (a : String) :
    (resolveSeg refresh acc (Proto.node a) =
        Except.error (RErr.unknownNode a, acc.refreshes) ↔
      acc.lookup.get_node a = none)
  ∧ (∀ name port, acc.lookup.get_node a = some (InternetAddress.dns name port) →
      resolveSeg refresh acc (Proto.node a) =
        Except.ok { acc with ma := acc.ma ++ [Proto.dnsaddr name, Proto.tcp port] })
  ∧ (∀ ip port, acc.lookup.get_node a = some (InternetAddress.v4 ip port) →
      resolveSeg refresh acc (Proto.node a) =
        Except.ok { acc with ma := acc.ma ++ [Proto.ip4 ip, Proto.tcp port] })
  ∧ (∀ segs port, acc.lookup.get_node a = some (InternetAddress.v6 segs port) →
      resolveSeg refresh acc (Proto.node a) =
        Except.ok { acc with ma := acc.ma ++ [Proto.ip6 segs, Proto.tcp port] }) := by
  refine ⟨⟨fun h => ?_, fun h => by simp [resolveSeg, h]⟩, ?_, ?_, ?_⟩
  · cases haddr : acc.lookup.get_node a with
    | none => rfl
    | some addr => rw [resolveSeg, haddr] at h; cases h
  · intro name port h
    simp [resolveSeg, h, InternetAddress.port]
  · intro ip port h
    simp [resolveSeg, h, InternetAddress.port]
  · intro segs port h
    simp [resolveSeg, h, InternetAddress.port]

/-- Witness for C6: node `a` of `c5Lookup` is an IPv4 record, so the
segment appends `Ip4(10.0.0.1)` then `Tcp(4000)`. -/
theorem C6_node_segment_witness :
    resolveSeg (fun l => Except.ok l) ⟨[], [], c5Lookup, 0⟩ (Proto.node "a") =
      Except.ok ⟨[Proto.ip4 (10, 0, 0, 1), Proto.tcp 4000], [],
                 c5Lookup, 0⟩ := by
  have h := (C6_node_segment (fun l => Except.ok l) ⟨[], [], c5Lookup, 0⟩
    "a").2.2.1 (10, 0, 0, 1) 4000 (by decide)
  simpa using h

lemma resolve_go_passthrough (refresh : ConfigLookup → Except RErr ConfigLookup) :
    ∀ (addr : List Proto) (acc : Acc),
      (∀ p ∈ addr, p.isPassthrough = true) →
      List.foldlM (resolveSeg refresh) acc addr =
        Except.ok { acc with ma := acc.ma ++ addr } := by
  intro addr
  induction addr with
  | nil =>
    intro acc _
    simp [List.foldlM, Pure.pure, Except.pure]
  | cons p ps ih =>
    intro acc h
    have hp : p.isPassthrough = true := h p (List.mem_cons_self p ps)
    have hstep : resolveSeg refresh acc p =
        Except.ok { acc with ma := acc.ma ++ [p] } := by
      cases p with
      | node a => simp [Proto.isPassthrough] at hp
      | project a => simp [Proto.isPassthrough] at hp
      | nodeInvalid => simp [Proto.isPassthrough] at hp
      | projectInvalid => simp [Proto.isPassthrough] at hp
      | dnsaddr n => rfl
      | ip4 ip => rfl
      | ip6 segs => rfl
      | tcp port => rfl
      | other c d => rfl
    have ht := ih { acc with ma := acc.ma ++ [p] }
      (fun q hq => h q (List.mem_cons_of_mem p hq))
    simp [List.foldlM, hstep, Bind.bind, Except.bind, ht]

/-- C7: an address with no node and no project segments resolves to
itself: every segment is appended verbatim in order, the identity
mapping is empty, and no refresh happens; in particular the empty
address resolves to the empty route. -/
theorem C7_passthrough_identity (refresh : ConfigLookup → Except RErr ConfigLookup)
    (lk : ConfigLookup) (addr : List Proto)
    (h : ∀ p ∈ addr, p.isPassthrough = true) :
    resolve refresh lk addr = Except.ok ⟨addr, [], lk, 0⟩ := by
  have hg := resolve_go_passthrough refresh addr ⟨[], [], lk, 0⟩ h
  simpa [resolve] using hg

/-- Witness for C7: a TCP segment and an opaque segment pass through
unchanged with an empty identity mapping. -/
theorem C7_passthrough_identity_witness :
    resolve (fun l => Except.ok l) emptyLookup
        [Proto.tcp 4000, Proto.other 7 [1, 2]] =
      Except.ok ⟨[Proto.tcp 4000, Proto.other 7 [1, 2]], [],
                 emptyLookup, 0⟩ :=
  C7_passthrough_identity (fun l => Except.ok l) emptyLookup
    [Proto.tcp 4000, Proto.other 7 [1, 2]] (by decide)

/-- C8: when the request is built, the local/remote flag comes from
`is_local_node` applied to the original unresolved address; the alias
is `"forward_to_" ++ name` for a local target and the name unmodified
for a remote one; and a missing user name defaults to the hex encoding
of the 4 random bytes. -/
theorem C8_alias_naming (is_local_node : List Proto → Option Bool)
    (refresh : ConfigLookup → Except RErr ConfigLookup) (lk : ConfigLookup)
    (at_addr : List Proto) (user : Option String)
    (rand4 : Nat × Nat × Nat × Nat) (req : CreateForwarder)
    (h : rpc is_local_node refresh lk at_addr (forwarderName user rand4) =
      Except.ok req) :
    is_local_node at_addr = some req.at_rust_node
  ∧ req.«alias» = some (if req.at_rust_node then
      "forward_to_" ++ forwarderName user rand4 else forwarderName user rand4)
  ∧ (user = none → forwarderName user rand4 =
      hexEncode [rand4.1, rand4.2.1, rand4.2.2.1, rand4.2.2.2]) := by
  cases hl : is_local_node at_addr with
  | none => simp [rpc, hl, Bind.bind, Except.bind] at h
  | some b =>
    cases hres : resolve refresh lk at_addr with
    | error e => simp [rpc, hl, hres, Bind.bind, Except.bind] at h
    | ok acc =>
      simp [rpc, hl, hres, Bind.bind, Except.bind, Pure.pure, Except.pure] at h
      subst h
      refine ⟨rfl, ?_, fun hu => by subst hu; rfl⟩
      simp [forwarderAlias]

/-- Witness for C8: a local target with the defaulted name
`hexEncode [0, 1, 171, 255] = "0001abff"` yields the alias
`forward_to_0001abff`. -/
theorem C8_alias_naming_witness :
    c8Req.«alias» = some (if c8Req.at_rust_node then
        "forward_to_" ++ forwarderName none (0, 1, 171, 255)
      else forwarderName none (0, 1, 171, 255)) :=
  (C8_alias_naming (fun _ => some true) (fun l => Except.ok l) emptyLookup
    [] none (0, 1, 171, 255) c8Req rfl).2.1

/-- C9: when resolution of the address fails, `rpc` returns that very
error; the `CreateForwarder` request is never built. -/
theorem C9_no_request_on_failure (is_local_node : List Proto → Option Bool)
    (refresh : ConfigLookup → Except RErr ConfigLookup) (lk : ConfigLookup)
    (at_addr : List Proto) (name : String) (b : Bool) (e : RErr) (n : Nat)
    (hl : is_local_node at_addr = some b)
    (h : resolve refresh lk at_addr = Except.error (e, n)) :
    rpc is_local_node refresh lk at_addr name = Except.error (e, n) := by
  simp [rpc, hl, h, Bind.bind, Except.bind]

/-- Witness for C9: the unknown node `x` makes `rpc` fail with exactly
the unknown-node error of the resolution. -/
theorem C9_no_request_on_failure_witness :
    rpc (fun _ => some false) (fun l => Except.ok l) emptyLookup
        [Proto.node "x"] "r" =
      Except.error (RErr.unknownNode "x", 0) :=
  C9_no_request_on_failure (fun _ => some false) (fun l => Except.ok l)
    emptyLookup [Proto.node "x"] "r" false (RErr.unknownNode "x") 0 rfl rfl

/-- C10: every request `rpc` builds carries a concrete alias (the
optional field is always `Some`) and is sent with credential-exchange
mode `Oneway`. -/
theorem C10_alias_some_oneway (is_local_node : List Proto → Option Bool)
    (refresh : ConfigLookup → Except RErr ConfigLookup) (lk : ConfigLookup)
    (at_addr : List Proto) (user : Option String)
    (rand4 : Nat × Nat × Nat × Nat) (req : CreateForwarder)
    (h : rpc is_local_node refresh lk at_addr (forwarderName user rand4) =
      Except.ok req) :
    req.«alias».isSome = true ∧ req.mode = CredentialExchangeMode.oneway := by
  cases hl : is_local_node at_addr with
  | none => simp [rpc, hl, Bind.bind, Except.bind] at h
  | some b =>
    cases hres : resolve refresh lk at_addr with
    | error e => simp [rpc, hl, hres, Bind.bind, Except.bind] at h
    | ok acc =>
      simp [rpc, hl, hres, Bind.bind, Except.bind, Pure.pure, Except.pure] at h
      subst h
      exact ⟨rfl, rfl⟩

/-- Witness for C10: a remote target with the explicit name `relay1`
still yields `Some` alias and mode `Oneway`. -/
theorem C10_alias_some_oneway_witness :
    c10Req.«alias».isSome = true ∧
      c10Req.mode = CredentialExchangeMode.oneway :=
  C10_alias_some_oneway (fun _ => some false) (fun l => Except.ok l)
    emptyLookup [] (some "relay1") (0, 0, 0, 0) c10Req rfl

end Ockam
